import Mathlib

/-!
# Verification of the AlphaGenome MCP server against its specification

Shallow embedding of the repository's job-management subsystem and of the
synchronous tool layer, with theorems settling the frozen claims.

The asynchronous Job Manager (`jobs/manager.py`) is imported by
`src/server.py` but its source is not part of the provided tree, so the
Job Manager definitions below are modelled from the specification
(sections 3, 4.1, 4.2 of the design document); each such definition says so
in its doc comment.  Everything about the synchronous layer
(`server.py` tool bodies, `scripts/dna_sequence_prediction.py`,
`scripts/lib/alphagenome_client.py`, `scripts/lib/parsers.py`,
`scripts/lib/utils.py`) is translated directly from the source.
-/

/-- Job lifecycle states, as listed in the spec's data model:
`pending, running, completed, failed, cancelled`. -/
inductive JobStatus
  | pending
  | running
  | completed
  | failed
  | cancelled
deriving DecidableEq, Repr

/-- A status is terminal iff it is `completed`, `failed` or `cancelled`. -/
def JobStatus.isTerminal : JobStatus → Bool
  | .completed => true
  | .failed => true
  | .cancelled => true
  | _ => false

/-- Rank of a status along the lifecycle `pending → running → terminal`. -/
def JobStatus.rank : JobStatus → Nat
  | .pending => 0
  | .running => 1
  | _ => 2

/-- The lifecycle order: a transition from `a` to `b` is an advance
(`a` strictly earlier in `pending → running → terminal`) or a stay. -/
def JobStatus.advancesTo (a b : JobStatus) : Bool :=
  a == b || a.rank < b.rank

/-- Values of a submission's argument mapping: absent/None, a string,
an integer, or a list of strings (spec section 6, submission input). -/
inductive ArgValue
  | null
  | str (s : String)
  | int (n : Int)
  | list (xs : List String)
deriving DecidableEq, Repr

/-- An argument mapping: parameter name to value, in submission order. -/
abbrev ArgMap := List (String × ArgValue)

/-- Modelled from the spec: the flag token derived from a parameter name
(the child command "accepts the submitted arguments as flags"). -/
def flagOf (key : String) : String := "--" ++ key

/-- Modelled from the spec: CLI tokens contributed by one argument.
Keys with `None`/absent values are omitted; list-valued arguments expand
to repeated flag tokens, one flag occurrence per list element. -/
def argTokens (flag : String) : ArgValue → List String
  | .null => []
  | .str s => [flag, s]
  | .int n => [flag, toString n]
  | .list xs => (xs.map (fun x => [flag, x])).flatten

/-- Modelled from the spec: the serialized argument vector derived from
the submission's argument mapping. -/
def buildArgVector (args : ArgMap) : List String :=
  (args.map (fun p => argTokens (flagOf p.1) p.2)).flatten

/-- Modelled from the spec: the command handed to the Process Executor is
the resolved script path followed by the serialized argument vector. -/
def buildCommand (scriptPath : String) (args : ArgMap) : List String :=
  scriptPath :: buildArgVector args

/-- A Job Record, the central entity of the spec's data model. -/
structure JobRecord where
  jobName : String
  status : JobStatus
  command : List String
  logBuffer : List String
  result : Option String
  error : Option String
  cancelRequested : Bool
  createdAt : Nat
  startedAt : Option Nat
  finishedAt : Option Nat
deriving DecidableEq, Repr

/-- The Job Record Store plus the id allocator: an in-memory mapping from
job identifier to job state, owned by the Job Manager. -/
structure ManagerState where
  jobs : List (String × JobRecord)
  nextId : Nat
deriving DecidableEq, Repr

/-- The empty store at server start. -/
def initState : ManagerState := { jobs := [], nextId := 0 }

/-- Look up a job record by id (first binding wins). -/
def findJob (s : ManagerState) (id : String) : Option JobRecord :=
  (s.jobs.find? (fun p => p.1 == id)).map (fun p => p.2)

/-- The status of a job, if the id is known. -/
def statusOf (s : ManagerState) (id : String) : Option JobStatus :=
  (findJob s id).map (fun r => r.status)

/-- Replace the record bound to `id` by `f` applied to it (first binding). -/
def updateJob (s : ManagerState) (id : String) (f : JobRecord → JobRecord) :
    ManagerState :=
  { s with
    jobs := s.jobs.map (fun p => if p.1 == id then (p.1, f p.2) else p) }

/-- The job id allocated for the `n`-th submission. -/
def jobIdOf (n : Nat) : String := "job_" ++ toString n

/-- Result of a submission: a fresh job id, or an immediate error. -/
inductive SubmitReply
  | jobId (id : String)
  | error (msg : String)
deriving DecidableEq, Repr

/-- Modelled from the spec: `submit` allocates a fresh `job_id`, creates a
`pending` Job Record holding the built command, and returns the id; it
fails only if the command/script cannot be resolved to a runnable
artifact, in which case no Job Record is created and the caller receives
an error result directly.  Resolvability of the script path is abstracted
as the boolean `resolvable`. -/
def submitJob (s : ManagerState) (resolvable : Bool) (scriptPath : String)
    (args : ArgMap) (jobName : String) (now : Nat) :
    ManagerState × SubmitReply :=
  if resolvable then
    let id := jobIdOf s.nextId
    let rec0 : JobRecord :=
      { jobName := jobName
        status := .pending
        command := buildCommand scriptPath args
        logBuffer := []
        result := none
        error := none
        cancelRequested := false
        createdAt := now
        startedAt := none
        finishedAt := none }
    ({ jobs := s.jobs ++ [(id, rec0)], nextId := s.nextId + 1 },
     .jobId id)
  else
    (s, .error ("Script not found: " ++ scriptPath))

/-- Modelled from the spec: the Executor reports that the process started;
`pending → running`, `started_at` set exactly once.  A start report for a
job no longer `pending` (for example already cancelled) is ignored, since
no transition leaves a terminal state. -/
def startJob (s : ManagerState) (id : String) (now : Nat) : ManagerState :=
  updateJob s id (fun r =>
    if r.status == .pending then
      { r with status := .running, startedAt := some now }
    else r)

/-- Modelled from the spec: the Executor reports clean exit with a parsed
result payload; `running → completed`, `result` persisted, `finished_at`
set.  Ignored unless the job is currently `running`. -/
def completeJob (s : ManagerState) (id : String) (payload : String)
    (now : Nat) : ManagerState :=
  updateJob s id (fun r =>
    if r.status == .running then
      { r with status := .completed, result := some payload,
               finishedAt := some now }
    else r)

/-- Modelled from the spec: the Executor reports a launch failure or a
non-zero exit; `pending|running → failed` with the failure reason
recorded.  Ignored on terminal states. -/
def failJob (s : ManagerState) (id : String) (msg : String) (now : Nat) :
    ManagerState :=
  updateJob s id (fun r =>
    if r.status == .pending || r.status == .running then
      { r with status := .failed, error := some msg,
               finishedAt := some now }
    else r)

/-- Modelled from the spec: a line of the child's combined output stream
is appended to the record's log buffer while the job is running. -/
def appendLog (s : ManagerState) (id : String) (line : String) :
    ManagerState :=
  updateJob s id (fun r =>
    if r.status == .running then
      { r with logBuffer := r.logBuffer ++ [line] }
    else r)

/-- Result of a cancel request. -/
inductive CancelReply
  | success (msg : String)
  | notFound (id : String)
deriving DecidableEq, Repr

/-- Modelled from the spec: `cancel` is a no-op success if the job is
already terminal; a `pending` job transitions directly to `cancelled`
without ever starting a process; a `running` job has `cancel_requested`
set, its process terminated (within the bounded grace period) and
transitions to `cancelled` — the acknowledgement of termination is
collapsed into the atomic transition.  Unknown ids yield "not found". -/
def cancelJob (s : ManagerState) (id : String) (now : Nat) :
    ManagerState × CancelReply :=
  match findJob s id with
  | none => (s, .notFound id)
  | some r =>
    if r.status.isTerminal then
      (s, .success "Job already finished")
    else
      (updateJob s id (fun r0 =>
        if r0.status.isTerminal then r0
        else
          { r0 with status := .cancelled,
                    cancelRequested := (r0.status == .running),
                    finishedAt := some now }),
       .success "Job cancelled")

/-- Reply of `get_job_status`: the status block, or "not found". -/
inductive StatusReply
  | ok (status : JobStatus) (createdAt : Nat) (startedAt : Option Nat)
      (finishedAt : Option Nat) (error : Option String)
  | notFound (id : String)
deriving DecidableEq, Repr

/-- Modelled from the spec: `get_status(job_id)` returns the status and
timestamps, or a structured "not found" error for an unknown id. -/
def getJobStatus (s : ManagerState) (id : String) : StatusReply :=
  match findJob s id with
  | none => .notFound id
  | some r => .ok r.status r.createdAt r.startedAt r.finishedAt r.error

/-- Reply of `get_job_result`: the stored payload, a descriptive
"not finished / failed / cancelled" error, or "not found". -/
inductive ResultReply
  | ok (payload : String)
  | notCompleted (status : JobStatus) (msg : String)
  | notFound (id : String)
deriving DecidableEq, Repr

/-- Modelled from the spec: `get_result` returns the stored result only if
`status == completed`; otherwise a descriptive error indicating the job is
not yet finished, failed, or was cancelled; it never blocks.  The model is
a pure function of the current state, so it is trivially non-blocking. -/
def getJobResult (s : ManagerState) (id : String) : ResultReply :=
  match findJob s id with
  | none => .notFound id
  | some r =>
    match r.status, r.result with
    | .completed, some p => .ok p
    | .completed, none =>
      .notCompleted .completed "Result payload missing"
    | .pending, _ => .notCompleted .pending "Job has not started yet"
    | .running, _ => .notCompleted .running "Job is still running"
    | .failed, _ => .notCompleted .failed "Job failed"
    | .cancelled, _ => .notCompleted .cancelled "Job was cancelled"

/-- Reply of `get_job_log`: the projected lines plus the total line count
of the buffer, or "not found". -/
inductive LogReply
  | ok (lines : List String) (totalCount : Nat)
  | notFound (id : String)
deriving DecidableEq, Repr

/-- Modelled from the spec: `get_log(job_id, tail)`; `tail == 0` returns
the full buffer, `tail > 0` returns at most the last `tail` lines,
together with the buffer's total line count. -/
def getJobLog (s : ManagerState) (id : String) (tail : Nat) : LogReply :=
  match findJob s id with
  | none => .notFound id
  | some r =>
    if tail == 0 then .ok r.logBuffer r.logBuffer.length
    else .ok (r.logBuffer.drop (r.logBuffer.length - tail))
            r.logBuffer.length

/-- One state-mutating event at the Job Manager: a submission, an Executor
lifecycle report (start, output line, completion, failure), or a
cancellation.  The query operations (`get_status`, `get_result`,
`get_log`, `list`) are pure reads of the state and mutate nothing, so an
interleaving of queries with these events is fully described by a list of
these events. -/
inductive Event
  | submit (resolvable : Bool) (scriptPath : String) (args : ArgMap)
      (jobName : String) (now : Nat)
  | start (id : String) (now : Nat)
  | output (id : String) (line : String)
  | complete (id : String) (payload : String) (now : Nat)
  | fail (id : String) (msg : String) (now : Nat)
  | cancel (id : String) (now : Nat)

/-- Apply one event to the manager state. -/
def applyEvent (s : ManagerState) : Event → ManagerState
  | .submit resolvable path args name now =>
    (submitJob s resolvable path args name now).1
  | .start id now => startJob s id now
  | .output id line => appendLog s id line
  | .complete id payload now => completeJob s id payload now
  | .fail id msg now => failJob s id msg now
  | .cancel id now => (cancelJob s id now).1

/-- Run a list of events, left to right, from a state. -/
def run (s : ManagerState) : List Event → ManagerState
  | [] => s
  | e :: es => run (applyEvent s e) es

/-- The job ids returned by the successful submissions of an event list
run from `s` (ids are allocated deterministically from the counter). -/
def submittedIds (s : ManagerState) : List Event → List String
  | [] => []
  | e :: es =>
    match e with
    | .submit true _ _ _ _ => jobIdOf s.nextId :: submittedIds (applyEvent s e) es
    | _ => submittedIds (applyEvent s e) es

/-- A state holding one job driven to `completed`: submitted at time 0,
started at time 1, completed at time 2 with payload "payload". -/
def exCompletedState : ManagerState :=
  run initState
    [Event.submit true "scripts/variant_scoring.py" [] "scoring-job" 0,
     Event.start (jobIdOf 0) 1,
     Event.complete (jobIdOf 0) "payload" 2]

/-! ## Lemmas about the Job Record Store -/

theorem find?_entry_update (l : List (String × JobRecord)) (id id' : String)
    (f : JobRecord → JobRecord) :
    ((l.map (fun p => if p.1 == id then (p.1, f p.2) else p)).find?
        (fun p => p.1 == id')).map (fun p => p.2) =
      if id' = id then
        ((l.find? (fun p => p.1 == id')).map (fun p => p.2)).map f
      else (l.find? (fun p => p.1 == id')).map (fun p => p.2) := by
  induction l with
  | nil => split <;> simp
  | cons hd tl ih =>
    obtain ⟨k, v⟩ := hd
    by_cases hk : k = id <;> by_cases hk' : k = id' <;>
      simp_all [List.find?_cons] <;> split <;> simp_all

theorem findJob_updateJob (s : ManagerState) (id : String)
    (f : JobRecord → JobRecord) (id' : String) :
    findJob (updateJob s id f) id' =
      if id' = id then (findJob s id').map f else findJob s id' := by
  unfold findJob updateJob
  exact find?_entry_update s.jobs id id' f

theorem findJob_append (s : ManagerState) (entry : String × JobRecord)
    (n : Nat) (id : String) :
    findJob { jobs := s.jobs ++ [entry], nextId := n } id =
      (findJob s id).or
        (if entry.1 = id then some entry.2 else none) := by
  unfold findJob
  simp only [List.find?_append]
  by_cases h : entry.1 = id
  · cases hfind : s.jobs.find? (fun p => p.1 == id) <;>
      simp [h, List.find?_cons, hfind]
  · cases hfind : s.jobs.find? (fun p => p.1 == id) <;>
      simp [h, List.find?_cons, hfind]

/-- Every mutating operation leaves a terminal job record entirely
unchanged: no transition (and no field change) out of a terminal state. -/
theorem applyEvent_frozen (e : Event) (s : ManagerState) (id : String)
    (r : JobRecord) (hfind : findJob s id = some r)
    (hterm : r.status.isTerminal = true) :
    findJob (applyEvent s e) id = some r := by
  have hguard :
      ∀ f : JobRecord → JobRecord, (∀ r0, r0.status.isTerminal = true →
        f r0 = r0) → ∀ tid, findJob (updateJob s tid f) id = some r := by
    intro f hf tid
    rw [findJob_updateJob]
    by_cases hid : id = tid
    · rw [if_pos hid, hfind]
      simp [hf r hterm]
    · simp [hid, hfind]
  cases e with
  | submit resolvable path args name now =>
    simp only [applyEvent, submitJob]
    by_cases hres : resolvable
    · simp only [hres, if_true]
      rw [findJob_append]
      simp [hfind]
    · simp [hres, hfind]
  | start tid now =>
    refine hguard _ (fun r0 h0 => ?_) tid
    cases h : r0.status <;> simp_all [startJob, JobStatus.isTerminal]
  | output tid line =>
    refine hguard _ (fun r0 h0 => ?_) tid
    cases h : r0.status <;> simp_all [JobStatus.isTerminal]
  | complete tid payload now =>
    refine hguard _ (fun r0 h0 => ?_) tid
    cases h : r0.status <;> simp_all [JobStatus.isTerminal]
  | fail tid msg now =>
    refine hguard _ (fun r0 h0 => ?_) tid
    cases h : r0.status <;> simp_all [JobStatus.isTerminal]
  | cancel tid now =>
    simp only [applyEvent, cancelJob]
    cases hlook : findJob s tid with
    | none => simpa using hfind
    | some r0 =>
      by_cases h0 : r0.status.isTerminal
      · simp [hlook, h0, hfind]
      · simp only [hlook, h0, Bool.false_eq_true, if_false]
        rw [findJob_updateJob]
        by_cases hid : id = tid
        · subst hid
          rw [hfind] at hlook
          cases hlook
          simp [hfind, hterm]
        · simp [hid, hfind]

theorem JobStatus.advancesTo_refl (t : JobStatus) : t.advancesTo t = true := by
  cases t <;> decide

/-- Each single event moves a job's status along the lifecycle order
`pending → running → {completed, failed, cancelled}` (or keeps it). -/
theorem applyEvent_advances (e : Event) (s : ManagerState) (id : String)
    (t t' : JobStatus) (h1 : statusOf s id = some t)
    (h2 : statusOf (applyEvent s e) id = some t') :
    t.advancesTo t' = true := by
  obtain ⟨r, hr, hrt⟩ : ∃ r, findJob s id = some r ∧ r.status = t := by
    unfold statusOf at h1
    cases hf : findJob s id with
    | none => rw [hf] at h1; cases h1
    | some r => rw [hf] at h1; exact ⟨r, rfl, by simpa using h1⟩
  have hgen : ∀ (f : JobRecord → JobRecord) (tid : String),
      (∀ r0 : JobRecord, r0.status.advancesTo (f r0).status = true) →
      statusOf (updateJob s tid f) id = some t' →
      t.advancesTo t' = true := by
    intro f tid hf h2
    unfold statusOf at h2
    rw [findJob_updateJob] at h2
    by_cases hid : id = tid
    · rw [if_pos hid, hr] at h2
      simp only [Option.map_map, Option.map_some] at h2
      have : t' = (f r).status := by
        simpa [Function.comp] using h2.symm
      rw [this, ← hrt]
      exact hf r
    · rw [if_neg hid, hr] at h2
      have ht : r.status = t' := by simpa using h2
      rw [← hrt, ht]
      exact JobStatus.advancesTo_refl _
  cases e with
  | submit resolvable path args name now =>
    simp only [applyEvent, submitJob] at h2
    by_cases hres : resolvable
    · simp only [hres, if_true] at h2
      unfold statusOf at h2
      rw [findJob_append, hr] at h2
      have ht : r.status = t' := by simpa using h2
      rw [← hrt, ht]
      exact JobStatus.advancesTo_refl _
    · simp only [hres, Bool.false_eq_true, if_false] at h2
      unfold statusOf at h2
      rw [hr] at h2
      have ht : r.status = t' := by simpa using h2
      rw [← hrt, ht]
      exact JobStatus.advancesTo_refl _
  | start tid now =>
    refine hgen _ tid (fun r0 => ?_) h2
    cases h : r0.status <;>
      simp [h, JobStatus.advancesTo, JobStatus.rank]
  | output tid line =>
    refine hgen _ tid (fun r0 => ?_) h2
    cases h : r0.status <;>
      simp [h, JobStatus.advancesTo, JobStatus.rank]
  | complete tid payload now =>
    refine hgen _ tid (fun r0 => ?_) h2
    cases h : r0.status <;>
      simp [h, JobStatus.advancesTo, JobStatus.rank]
  | fail tid msg now =>
    refine hgen _ tid (fun r0 => ?_) h2
    cases h : r0.status <;>
      simp [h, JobStatus.advancesTo, JobStatus.rank]
  | cancel tid now =>
    simp only [applyEvent, cancelJob] at h2
    cases hlook : findJob s tid with
    | none =>
      rw [hlook] at h2
      unfold statusOf at h2
      rw [hr] at h2
      have ht : r.status = t' := by simpa using h2
      rw [← hrt, ht]
      exact JobStatus.advancesTo_refl _
    | some r0 =>
      rw [hlook] at h2
      by_cases h0 : r0.status.isTerminal
      · simp only [h0, if_true] at h2
        unfold statusOf at h2
        rw [hr] at h2
        have ht : r.status = t' := by simpa using h2
        rw [← hrt, ht]
        exact JobStatus.advancesTo_refl _
      · simp only [h0, Bool.false_eq_true, if_false] at h2
        refine hgen _ tid (fun r1 => ?_) h2
        cases h : r1.status <;>
          simp [h, JobStatus.advancesTo, JobStatus.rank,
            JobStatus.isTerminal]

/-- Iterated version: a terminal record survives any event list intact. -/
theorem run_frozen (es : List Event) (s : ManagerState) (id : String)
    (r : JobRecord) (hfind : findJob s id = some r)
    (hterm : r.status.isTerminal = true) :
    findJob (run s es) id = some r := by
  induction es generalizing s with
  | nil => simpa [run] using hfind
  | cons e es ih =>
    exact ih (applyEvent s e) (applyEvent_frozen e s id r hfind hterm)

/-! ## Claim C1: monotone lifecycle, terminal statuses are stable -/

/-- C1.  For every submitted job and every interleaving of submissions,
queries, cancellations, and executor completion callbacks, the job's
status only advances along
`pending → running → {completed, failed, cancelled}` (first conjunct:
every single mutating event keeps or advances the status along the
lifecycle order); and once `get_job_status` reports a terminal status for
a `job_id`, every later `get_job_status` call for that `job_id` reports
the same status (second conjunct: the whole status block is unchanged by
any further event list; queries are pure reads of the state and cannot
change it at all). -/
theorem c1_status_monotonic_terminal_stable :
    (∀ (s : ManagerState) (e : Event) (id : String) (t t' : JobStatus),
      statusOf s id = some t → statusOf (applyEvent s e) id = some t' →
      t.advancesTo t' = true) ∧
    (∀ (s : ManagerState) (id : String) (es : List Event) (t : JobStatus)
      (c : Nat) (st fin : Option Nat) (err : Option String),
      getJobStatus s id = .ok t c st fin err → t.isTerminal = true →
      getJobStatus (run s es) id = .ok t c st fin err) := by
  constructor
  · intro s e id t t' h1 h2
    exact applyEvent_advances e s id t t' h1 h2
  · intro s id es t c st fin err hrep hterm
    unfold getJobStatus at hrep ⊢
    cases hfind : findJob s id with
    | none => rw [hfind] at hrep; cases hrep
    | some r =>
      rw [hfind] at hrep
      cases hrep
      rw [run_frozen es s id r hfind hterm]

/-- Witness for C1 at a concrete input: a completed job's status report
survives a cancel and a late start report unchanged. -/
theorem c1_witness :
    getJobStatus
      (run exCompletedState [Event.cancel "job_0" 5, Event.start "job_0" 6])
      "job_0" = .ok .completed 0 (some 1) (some 2) none :=
  c1_status_monotonic_terminal_stable.2 exCompletedState "job_0"
    [Event.cancel "job_0" 5, Event.start "job_0" 6]
    .completed 0 (some 1) (some 2) none (by decide) (by decide)

/-! ## Claim C2: unknown job ids always answer "not found" -/

theorem findJob_none_update (s : ManagerState) (tid : String)
    (f : JobRecord → JobRecord) (id : String)
    (h : findJob s id = none) : findJob (updateJob s tid f) id = none := by
  rw [findJob_updateJob]
  split <;> simp [h]

/-- An id never returned by a successful submission of the trace stays
absent from the store. -/
theorem run_not_submitted (es : List Event) (s : ManagerState) (id : String)
    (hout : id ∉ submittedIds s es) (h : findJob s id = none) :
    findJob (run s es) id = none := by
  induction es generalizing s with
  | nil => simpa [run] using h
  | cons e es ih =>
    rw [run]
    cases e with
    | submit resolvable path args name now =>
      cases resolvable with
      | true =>
        have hsub : submittedIds s (.submit true path args name now :: es) =
            jobIdOf s.nextId ::
              submittedIds (applyEvent s (.submit true path args name now))
                es := rfl
        rw [hsub] at hout
        have hne : jobIdOf s.nextId ≠ id :=
          fun hid => hout (by rw [hid]; exact List.mem_cons_self _ _)
        have hrest : id ∉ submittedIds
            (applyEvent s (.submit true path args name now)) es :=
          fun hmem => hout (List.mem_cons_of_mem _ hmem)
        refine ih _ hrest ?_
        show findJob (submitJob s true path args name now).1 id = none
        unfold submitJob
        simp only [if_true]
        rw [findJob_append, h]
        simp [hne]
      | false =>
        have hrest : id ∉ submittedIds
            (applyEvent s (.submit false path args name now)) es := hout
        exact ih _ hrest (by simpa [applyEvent, submitJob] using h)
    | start tid now =>
      exact ih _ hout (findJob_none_update s tid _ id h)
    | output tid line =>
      exact ih _ hout (findJob_none_update s tid _ id h)
    | complete tid payload now =>
      exact ih _ hout (findJob_none_update s tid _ id h)
    | fail tid msg now =>
      exact ih _ hout (findJob_none_update s tid _ id h)
    | cancel tid now =>
      refine ih _ hout ?_
      show findJob (cancelJob s tid now).1 id = none
      unfold cancelJob
      cases hlook : findJob s tid with
      | none => simpa using h
      | some r0 =>
        by_cases h0 : r0.status.isTerminal
        · simpa [h0] using h
        · simp only [h0, Bool.false_eq_true, if_false]
          exact findJob_none_update s tid _ id h

/-- C2.  For every `job_id` string that no submission of the trace ever
returned, each of `get_job_status`, `get_job_result`, `get_job_log` and
`cancel_job` returns a structured "not found" error naming the id; none
of them creates a default/empty job record or changes the state (the
embedding is by total functions, so no exception is raised). -/
theorem c2_unknown_id_not_found (es : List Event) (id : String)
    (tail : Nat) (now : Nat) (h : id ∉ submittedIds initState es) :
    getJobStatus (run initState es) id = .notFound id ∧
    getJobResult (run initState es) id = .notFound id ∧
    getJobLog (run initState es) id tail = .notFound id ∧
    (cancelJob (run initState es) id now).2 = .notFound id ∧
    (cancelJob (run initState es) id now).1 = run initState es := by
  have hnone : findJob (run initState es) id = none :=
    run_not_submitted es initState id h rfl
  unfold getJobStatus getJobResult getJobLog cancelJob
  rw [hnone]
  simp

/-- Witness for C2 at a concrete input: after one real submission, the id
"no-such-job" is still answered with "not found" by all four operations. -/
theorem c2_witness :
    ("no-such-job" ∉ submittedIds initState
      [Event.submit true "scripts/variant_scoring.py" [] "scoring-job" 0]) ∧
    getJobStatus (run initState
      [Event.submit true "scripts/variant_scoring.py" [] "scoring-job" 0])
      "no-such-job" = .notFound "no-such-job" :=
  ⟨by decide,
   (c2_unknown_id_not_found
      [Event.submit true "scripts/variant_scoring.py" [] "scoring-job" 0]
      "no-such-job" 0 0 (by decide)).1⟩

/-! ## Claim C3: result payload exactly when completed -/

/-- A record is well-formed for result resolution: the payload is present
exactly when the job is `completed`. -/
def GoodRec (r : JobRecord) : Prop :=
  (r.status = .completed → ∃ p, r.result = some p) ∧
  (r.status ≠ .completed → r.result = none)

/-- Store invariant: every visible record is well-formed. -/
def ResultInv (s : ManagerState) : Prop :=
  ∀ id r, findJob s id = some r → GoodRec r

theorem resultInv_update (s : ManagerState) (tid : String)
    (f : JobRecord → JobRecord) (hinv : ResultInv s)
    (hf : ∀ r, GoodRec r → GoodRec (f r)) :
    ResultInv (updateJob s tid f) := by
  intro id r' h
  rw [findJob_updateJob] at h
  by_cases hid : id = tid
  · rw [if_pos hid] at h
    cases hfind : findJob s id with
    | none => rw [hfind] at h; cases h
    | some r =>
      rw [hfind] at h
      have : r' = f r := by simpa using h.symm
      rw [this]
      exact hf r (hinv id r hfind)
  · rw [if_neg hid] at h
    exact hinv id r' h

theorem resultInv_applyEvent (e : Event) (s : ManagerState)
    (hinv : ResultInv s) : ResultInv (applyEvent s e) := by
  cases e with
  | submit resolvable path args name now =>
    show ResultInv (submitJob s resolvable path args name now).1
    unfold submitJob
    by_cases hres : resolvable
    · simp only [hres, if_true]
      intro id r' h
      rw [findJob_append] at h
      cases hfind : findJob s id with
      | some r =>
        rw [hfind] at h
        have : r' = r := by simpa using h.symm
        rw [this]
        exact hinv id r hfind
      | none =>
        rw [hfind] at h
        simp only [Option.none_or] at h
        by_cases hid : jobIdOf s.nextId = id
        · rw [if_pos hid] at h
          have hr' : r' = _ := (Option.some.injEq _ _ ▸ h.symm : _)
          cases h
          constructor <;> intro hst <;> simp_all
        · rw [if_neg hid] at h; cases h
    · simpa [hres] using hinv
  | start tid now =>
    refine resultInv_update s tid _ hinv (fun r hr => ?_)
    by_cases h : r.status = .pending <;>
      · obtain ⟨h1, h2⟩ := hr
        constructor <;> intro hst <;> simp_all [GoodRec]
  | output tid line =>
    refine resultInv_update s tid _ hinv (fun r hr => ?_)
    by_cases h : r.status = .running <;>
      · obtain ⟨h1, h2⟩ := hr
        constructor <;> intro hst <;> simp_all [GoodRec]
  | complete tid payload now =>
    refine resultInv_update s tid _ hinv (fun r hr => ?_)
    by_cases h : r.status = .running <;>
      · obtain ⟨h1, h2⟩ := hr
        constructor <;> intro hst <;> simp_all [GoodRec]
  | fail tid msg now =>
    refine resultInv_update s tid _ hinv (fun r hr => ?_)
    by_cases h1 : r.status = .pending <;> by_cases h2 : r.status = .running <;>
      · obtain ⟨g1, g2⟩ := hr
        constructor <;> intro hst <;> simp_all [GoodRec]
  | cancel tid now =>
    show ResultInv (cancelJob s tid now).1
    unfold cancelJob
    cases hlook : findJob s tid with
    | none => simpa using hinv
    | some r0 =>
      by_cases h0 : r0.status.isTerminal
      · simpa [h0] using hinv
      · simp only [h0, Bool.false_eq_true, if_false]
        refine resultInv_update s tid _ hinv (fun r hr => ?_)
        by_cases h : r.status.isTerminal
        · simpa [h] using hr
        · obtain ⟨g1, g2⟩ := hr
          have hres : r.result = none := by
            apply g2
            intro hc
            rw [hc] at h
            exact h rfl
          simp [h, GoodRec, hres]

theorem resultInv_run (es : List Event) (s : ManagerState)
    (hinv : ResultInv s) : ResultInv (run s es) := by
  induction es generalizing s with
  | nil => simpa [run] using hinv
  | cons e es ih => exact ih _ (resultInv_applyEvent e s hinv)

theorem resultInv_init : ResultInv initState := by
  intro id r h
  cases h

/-- C3.  In every reachable state, `get_job_result` returns the stored
result payload exactly when the job's status is `completed`; for every
other status it returns a descriptive `notCompleted` error naming that
status and carries no payload (never a stale or partial result).  The
operation is a pure function of the current state, so it returns without
waiting for the job to finish. -/
theorem c3_result_only_when_completed (es : List Event) (id : String)
    (r : JobRecord) (hfind : findJob (run initState es) id = some r) :
    (r.status = .completed →
      ∃ p, r.result = some p ∧
        getJobResult (run initState es) id = .ok p) ∧
    (r.status ≠ .completed →
      (∃ msg, getJobResult (run initState es) id =
        .notCompleted r.status msg) ∧
      ∀ p, getJobResult (run initState es) id ≠ .ok p) := by
  have hgood : GoodRec r :=
    resultInv_run es initState resultInv_init id r hfind
  obtain ⟨g1, g2⟩ := hgood
  constructor
  · intro hst
    obtain ⟨p, hp⟩ := g1 hst
    refine ⟨p, hp, ?_⟩
    unfold getJobResult
    rw [hfind, hst] at *
    rw [hfind]
    cases hr : r.status <;> simp_all [hp]
  · intro hst
    have hres : r.result = none := g2 hst
    unfold getJobResult
    rw [hfind]
    cases hr : r.status <;> simp_all [hres]

/-- Witness for C3 at a concrete input: the completed job of
`exCompletedState` yields its stored payload. -/
theorem c3_witness :
    findJob (run initState
      [Event.submit true "scripts/variant_scoring.py" [] "scoring-job" 0,
       Event.start (jobIdOf 0) 1,
       Event.complete (jobIdOf 0) "payload" 2]) "job_0" =
      some { jobName := "scoring-job", status := .completed,
             command := ["scripts/variant_scoring.py"], logBuffer := [],
             result := some "payload", error := none,
             cancelRequested := false, createdAt := 0,
             startedAt := some 1, finishedAt := some 2 } ∧
    (JobStatus.completed = JobStatus.completed →
      ∃ p, (some "payload" : Option String) = some p ∧
        getJobResult (run initState
          [Event.submit true "scripts/variant_scoring.py" [] "scoring-job" 0,
           Event.start (jobIdOf 0) 1,
           Event.complete (jobIdOf 0) "payload" 2]) "job_0" = .ok p) :=
  ⟨by decide,
   fun _ => by
    have h := (c3_result_only_when_completed
      [Event.submit true "scripts/variant_scoring.py" [] "scoring-job" 0,
       Event.start (jobIdOf 0) 1,
       Event.complete (jobIdOf 0) "payload" 2] "job_0"
      { jobName := "scoring-job", status := .completed,
        command := ["scripts/variant_scoring.py"], logBuffer := [],
        result := some "payload", error := none,
        cancelRequested := false, createdAt := 0,
        startedAt := some 1, finishedAt := some 2 } (by decide)).1 rfl
    simpa using h⟩

/-! ## Claim C4: log tail projection -/

/-- C4.  For every known job and every tail value: `tail == 0` returns
the full log buffer, and `tail == N > 0` returns at most `N` lines that
form a suffix of the full buffer at call time, together with the total
line count of the buffer. -/
theorem c4_log_tail (s : ManagerState) (id : String) (tail : Nat)
    (r : JobRecord) (hfind : findJob s id = some r) :
    getJobLog s id 0 = .ok r.logBuffer r.logBuffer.length ∧
    (0 < tail →
      ∃ lines, getJobLog s id tail = .ok lines r.logBuffer.length ∧
        lines.length ≤ tail ∧ lines.IsSuffix r.logBuffer) := by
  constructor
  · unfold getJobLog
    rw [hfind]
    rfl
  · intro hpos
    have hne : (tail == 0) = false := by
      simp only [beq_eq_false_iff_ne, ne_eq]
      omega
    refine ⟨r.logBuffer.drop (r.logBuffer.length - tail), ?_, ?_, ?_⟩
    · unfold getJobLog
      rw [hfind, hne]
      simp
    · rw [List.length_drop]
      omega
    · exact List.drop_suffix _ _

/-- Witness for C4 at a concrete input: a running job with three log
lines, tailed with `tail = 2`. -/
theorem c4_witness :
    findJob (run initState
      [Event.submit true "scripts/variant_scoring.py" [] "scoring-job" 0,
       Event.start (jobIdOf 0) 1, Event.output (jobIdOf 0) "l1",
       Event.output (jobIdOf 0) "l2", Event.output (jobIdOf 0) "l3"])
      "job_0" =
      some { jobName := "scoring-job", status := .running,
             command := ["scripts/variant_scoring.py"],
             logBuffer := ["l1", "l2", "l3"], result := none,
             error := none, cancelRequested := false, createdAt := 0,
             startedAt := some 1, finishedAt := none } ∧
    (0 : Nat) < 2 ∧
    getJobLog (run initState
      [Event.submit true "scripts/variant_scoring.py" [] "scoring-job" 0,
       Event.start (jobIdOf 0) 1, Event.output (jobIdOf 0) "l1",
       Event.output (jobIdOf 0) "l2", Event.output (jobIdOf 0) "l3"])
      "job_0" 0 = .ok ["l1", "l2", "l3"] 3 := by
  refine ⟨by decide, by decide, ?_⟩
  have h := (c4_log_tail (run initState
      [Event.submit true "scripts/variant_scoring.py" [] "scoring-job" 0,
       Event.start (jobIdOf 0) 1, Event.output (jobIdOf 0) "l1",
       Event.output (jobIdOf 0) "l2", Event.output (jobIdOf 0) "l3"])
      "job_0" 2
      { jobName := "scoring-job", status := .running,
        command := ["scripts/variant_scoring.py"],
        logBuffer := ["l1", "l2", "l3"], result := none,
        error := none, cancelRequested := false, createdAt := 0,
        startedAt := some 1, finishedAt := none } (by decide)).1
  simpa using h

/-! ## Claim C5: cancel idempotence -/

/-- Counterexample to C5 as stated: for a known job that already
`completed`, calling cancel twice returns a success result both times,
yet the final status is `completed`, not `cancelled` — the "leaves the
final status cancelled" part cannot hold for every known job, exactly
because (as the claim's own second half says) cancel on a terminal job
does not change the status. -/
theorem c5_counterexample :
    (findJob exCompletedState "job_0").isSome = true ∧
    (cancelJob exCompletedState "job_0" 3).2 =
      .success "Job already finished" ∧
    (cancelJob (cancelJob exCompletedState "job_0" 3).1 "job_0" 4).2 =
      .success "Job already finished" ∧
    statusOf (cancelJob (cancelJob exCompletedState "job_0" 3).1
      "job_0" 4).1 "job_0" = some .completed ∧
    ¬ statusOf (cancelJob (cancelJob exCompletedState "job_0" 3).1
      "job_0" 4).1 "job_0" = some .cancelled := by
  exact ⟨by decide, by decide, by decide, by decide, by decide⟩

/-- C5 (amended).  For every known job, calling cancel twice returns a
success result both times; if the job was not already `completed` or
`failed`, the final status is `cancelled`; and cancel on a job already in
a terminal state is a no-op that still returns success and leaves the
manager state (hence the job's status) unchanged. -/
theorem c5_cancel_idempotent (s : ManagerState) (id : String)
    (now1 now2 : Nat) (r : JobRecord) (hfind : findJob s id = some r) :
    (∃ m, (cancelJob s id now1).2 = .success m) ∧
    (∃ m, (cancelJob (cancelJob s id now1).1 id now2).2 = .success m) ∧
    (r.status ≠ .completed → r.status ≠ .failed →
      statusOf (cancelJob (cancelJob s id now1).1 id now2).1 id =
        some .cancelled) ∧
    (r.status.isTerminal = true →
      (cancelJob s id now1).1 = s ∧
      (cancelJob (cancelJob s id now1).1 id now2).1 = s) := by
  by_cases hterm : r.status.isTerminal
  · have h1 : cancelJob s id now1 = (s, .success "Job already finished") := by
      unfold cancelJob
      rw [hfind]
      simp [hterm]
    have h2 : cancelJob (cancelJob s id now1).1 id now2 =
        (s, .success "Job already finished") := by
      rw [h1]
      unfold cancelJob
      rw [hfind]
      simp [hterm]
    refine ⟨⟨_, by rw [h1]⟩, ⟨_, by rw [h2]⟩, ?_, fun _ => ⟨by rw [h1], by rw [h2]⟩⟩
    intro hc hf
    have hcan : r.status = .cancelled := by
      cases h : r.status <;> simp_all [JobStatus.isTerminal]
    rw [h2]
    unfold statusOf
    rw [hfind]
    simp [hcan]
  · have h1 : cancelJob s id now1 =
        (updateJob s id (fun r0 =>
          if r0.status.isTerminal then r0
          else
            { r0 with status := .cancelled,
                      cancelRequested := (r0.status == .running),
                      finishedAt := some now1 }),
         .success "Job cancelled") := by
      unfold cancelJob
      rw [hfind]
      simp [hterm]
    have hfind1 : findJob (cancelJob s id now1).1 id =
        some { r with status := .cancelled,
                      cancelRequested := (r.status == .running),
                      finishedAt := some now1 } := by
      rw [h1, findJob_updateJob]
      simp [hfind, hterm]
    have h2 : cancelJob (cancelJob s id now1).1 id now2 =
        ((cancelJob s id now1).1, .success "Job already finished") := by
      generalize hS : (cancelJob s id now1).1 = S at hfind1
      unfold cancelJob
      rw [hfind1]
      simp [JobStatus.isTerminal]
    refine ⟨⟨_, by rw [h1]⟩, ⟨_, by rw [h2]⟩, ?_, fun ht => absurd ht (by simp [hterm])⟩
    intro _ _
    rw [h2]
    unfold statusOf
    rw [hfind1]
    rfl

/-- Witness for the amended C5 at a concrete input: a pending job,
cancelled twice, ends `cancelled`. -/
theorem c5_witness :
    findJob (run initState
      [Event.submit true "scripts/variant_scoring.py" [] "scoring-job" 0])
      "job_0" =
      some { jobName := "scoring-job", status := .pending,
             command := ["scripts/variant_scoring.py"], logBuffer := [],
             result := none, error := none, cancelRequested := false,
             createdAt := 0, startedAt := none, finishedAt := none } ∧
    statusOf (cancelJob (cancelJob (run initState
      [Event.submit true "scripts/variant_scoring.py" [] "scoring-job" 0])
      "job_0" 1).1 "job_0" 2).1 "job_0" = some .cancelled :=
  ⟨by decide,
   (c5_cancel_idempotent (run initState
      [Event.submit true "scripts/variant_scoring.py" [] "scoring-job" 0])
      "job_0" 1 2
      { jobName := "scoring-job", status := .pending,
        command := ["scripts/variant_scoring.py"], logBuffer := [],
        result := none, error := none, cancelRequested := false,
        createdAt := 0, startedAt := none, finishedAt := none }
      (by decide)).2.2.1 (by decide) (by decide)⟩

/-! ## Claim C6: submission returns a job id or an immediate error -/

/-- Helper case analysis for `submitJob` under a fresh allocator (the next
id is not yet bound — the manager never reuses ids, so this holds in every
state the manager reaches). -/
theorem submitJob_cases (s : ManagerState) (resolvable : Bool)
    (path : String) (args : ArgMap) (name : String) (now : Nat)
    (hfresh : findJob s (jobIdOf s.nextId) = none) :
    ((submitJob s resolvable path args name now).2 =
        .jobId (jobIdOf s.nextId) ∧ resolvable = true ∧
      findJob (submitJob s resolvable path args name now).1
          (jobIdOf s.nextId) =
        some { jobName := name, status := .pending,
               command := buildCommand path args, logBuffer := [],
               result := none, error := none, cancelRequested := false,
               createdAt := now, startedAt := none, finishedAt := none }) ∨
    (submitJob s resolvable path args name now =
        (s, .error ("Script not found: " ++ path)) ∧ resolvable = false) := by
  cases resolvable with
  | false => exact Or.inr ⟨by unfold submitJob; simp, rfl⟩
  | true =>
    refine Or.inl ⟨by unfold submitJob; simp, rfl, ?_⟩
    show findJob (submitJob s true path args name now).1 _ = _
    unfold submitJob
    simp only [if_true]
    rw [findJob_append, hfresh]
    simp

/-- Relative script paths used by the server's submission tools
(`SCRIPTS_DIR / name` in `src/server.py`; the absolute prefix is
abstracted away). -/
def variantEffectScript : String := "scripts/variant_effect_prediction.py"

def variantScoringScript : String := "scripts/variant_scoring.py"

/-- Python `a or b` on an optional string: the default is used when the
value is absent or empty (falsy). -/
def pyOrStr (o : Option String) (dflt : String) : String :=
  match o with
  | some v => if v.isEmpty then dflt else v
  | none => dflt

/-- The argument mapping built by `submit_batch_variant_analysis`
(translated from `src/server.py`): variants and intervals joined with
commas, plus organism, output types and output directory. -/
def batchVariantArgs (variants intervals : List String) (organism : String)
    (output_types : Option (List String)) (output_dir : Option String) :
    ArgMap :=
  [("variant", .str (String.intercalate "," variants)),
   ("interval", .str (String.intercalate "," intervals)),
   ("organism", .str organism),
   ("output_types",
     match output_types with
     | none => .null
     | some xs => .list xs),
   ("output_dir",
     match output_dir with
     | none => .null
     | some d => .str d)]

/-- Translated from `src/server.py`, `submit_batch_variant_analysis`:
rejects a variants/intervals length mismatch, resolves the script from
`analysis_type` ("effects" or "scoring", otherwise an error), then hands
the job to the manager's `submit_job`.  Script resolvability is the
predicate `resolvable` on paths. -/
def submit_batch_variant_analysis (resolvable : String → Bool)
    (s : ManagerState) (variants intervals : List String)
    (analysis_type organism : String)
    (output_types : Option (List String)) (output_dir : Option String)
    (job_name : Option String) (now : Nat) : ManagerState × SubmitReply :=
  if variants.length != intervals.length then
    (s, .error "Number of variants must match number of intervals")
  else if analysis_type == "effects" then
    submitJob s (resolvable variantEffectScript) variantEffectScript
      (batchVariantArgs variants intervals organism output_types output_dir)
      (pyOrStr job_name
        ("batch_variant_" ++ analysis_type ++ "_" ++
          toString variants.length ++ "_variants")) now
  else if analysis_type == "scoring" then
    submitJob s (resolvable variantScoringScript) variantScoringScript
      (batchVariantArgs variants intervals organism output_types output_dir)
      (pyOrStr job_name
        ("batch_variant_" ++ analysis_type ++ "_" ++
          toString variants.length ++ "_variants")) now
  else
    (s, .error "analysis_type must be effects or scoring")

/-- Counterexample to C6 as stated: with every script resolvable, a
batch submission with one variant and zero intervals still returns an
immediate error — so "returns an error only when the command/script
cannot be resolved to a runnable artifact" is false (the rest of the
claim holds: no Job Record is created here). -/
theorem c6_counterexample :
    ((fun _ => true) : String → Bool) variantEffectScript = true ∧
    (submit_batch_variant_analysis (fun _ => true) initState
      ["chr1:100A>G"] [] "effects" "human" none none none 0).2 =
      .error "Number of variants must match number of intervals" ∧
    (submit_batch_variant_analysis (fun _ => true) initState
      ["chr1:100A>G"] [] "effects" "human" none none none 0).1 =
      initState :=
  ⟨rfl, by decide, by decide⟩

/-- C6 (amended).  Every submission returns either a job id or an
immediate error; when an error is returned no Job Record is created (the
manager state is unchanged); when a job id is returned a pending Job
Record exists for it; and an error occurs only when the batch arguments
are rejected up front (variants/intervals length mismatch or unknown
analysis type) or when the resolved script is not a runnable artifact.
The freshness hypothesis states that the allocator's next id is unused,
which the manager maintains by never reusing ids. -/
theorem c6_submit_amended (resolvable : String → Bool) (s : ManagerState)
    (variants intervals : List String) (analysis_type organism : String)
    (output_types : Option (List String)) (output_dir : Option String)
    (job_name : Option String) (now : Nat)
    (hfresh : findJob s (jobIdOf s.nextId) = none) :
    ((∃ id, (submit_batch_variant_analysis resolvable s variants intervals
        analysis_type organism output_types output_dir job_name now).2 =
          .jobId id) ∨
      (∃ m, (submit_batch_variant_analysis resolvable s variants intervals
        analysis_type organism output_types output_dir job_name now).2 =
          .error m)) ∧
    (∀ m, (submit_batch_variant_analysis resolvable s variants intervals
        analysis_type organism output_types output_dir job_name now).2 =
          .error m →
      (submit_batch_variant_analysis resolvable s variants intervals
        analysis_type organism output_types output_dir job_name now).1 =
        s) ∧
    (∀ id, (submit_batch_variant_analysis resolvable s variants intervals
        analysis_type organism output_types output_dir job_name now).2 =
          .jobId id →
      ∃ r, findJob (submit_batch_variant_analysis resolvable s variants
          intervals analysis_type organism output_types output_dir
          job_name now).1 id = some r ∧ r.status = .pending) ∧
    (∀ m, (submit_batch_variant_analysis resolvable s variants intervals
        analysis_type organism output_types output_dir job_name now).2 =
          .error m →
      variants.length ≠ intervals.length ∨
      (analysis_type ≠ "effects" ∧ analysis_type ≠ "scoring") ∨
      (analysis_type = "effects" ∧
        resolvable variantEffectScript = false) ∨
      (analysis_type = "scoring" ∧
        resolvable variantScoringScript = false)) := by
  unfold submit_batch_variant_analysis
  by_cases hlen : variants.length = intervals.length
  · rw [show (variants.length != intervals.length) = false by
      simpa using hlen, if_neg (by simp)]
    by_cases heff : analysis_type = "effects"
    · rw [show (analysis_type == "effects") = true by simpa using heff,
        if_pos rfl]
      rcases submitJob_cases s (resolvable variantEffectScript)
          variantEffectScript
          (batchVariantArgs variants intervals organism output_types
            output_dir)
          (pyOrStr job_name
            ("batch_variant_" ++ analysis_type ++ "_" ++
              toString variants.length ++ "_variants")) now hfresh with
        hok | herr
      · obtain ⟨hrep, hres, hfound⟩ := hok
        refine ⟨Or.inl ⟨_, hrep⟩, ?_, ?_, ?_⟩
        · intro m hm
          rw [hrep] at hm
          cases hm
        · intro id hid
          rw [hrep] at hid
          cases hid
          exact ⟨_, hfound, rfl⟩
        · intro m hm
          rw [hrep] at hm
          cases hm
      · obtain ⟨heq, hres⟩ := herr
        refine ⟨Or.inr ⟨_, by rw [heq]⟩, ?_, ?_, ?_⟩
        · intro m _
          rw [heq]
        · intro id hid
          rw [heq] at hid
          cases hid
        · intro m _
          exact Or.inr (Or.inr (Or.inl ⟨heff, hres⟩))
    · rw [show (analysis_type == "effects") = false by simpa using heff,
        if_neg (by simp)]
      by_cases hsco : analysis_type = "scoring"
      · rw [show (analysis_type == "scoring") = true by simpa using hsco,
          if_pos rfl]
        rcases submitJob_cases s (resolvable variantScoringScript)
            variantScoringScript
            (batchVariantArgs variants intervals organism output_types
              output_dir)
            (pyOrStr job_name
              ("batch_variant_" ++ analysis_type ++ "_" ++
                toString variants.length ++ "_variants")) now hfresh with
          hok | herr
        · obtain ⟨hrep, hres, hfound⟩ := hok
          refine ⟨Or.inl ⟨_, hrep⟩, ?_, ?_, ?_⟩
          · intro m hm
            rw [hrep] at hm
            cases hm
          · intro id hid
            rw [hrep] at hid
            cases hid
            exact ⟨_, hfound, rfl⟩
          · intro m hm
            rw [hrep] at hm
            cases hm
        · obtain ⟨heq, hres⟩ := herr
          refine ⟨Or.inr ⟨_, by rw [heq]⟩, ?_, ?_, ?_⟩
          · intro m _
            rw [heq]
          · intro id hid
            rw [heq] at hid
            cases hid
          · intro m _
            exact Or.inr (Or.inr (Or.inr ⟨hsco, hres⟩))
      · rw [show (analysis_type == "scoring") = false by simpa using hsco,
          if_neg (by simp)]
        refine ⟨Or.inr ⟨_, rfl⟩, fun m _ => rfl, ?_, ?_⟩
        · intro id hid
          cases hid
        · intro m _
          exact Or.inr (Or.inl ⟨heff, hsco⟩)
  · rw [show (variants.length != intervals.length) = true by
      simpa using hlen, if_pos rfl]
    refine ⟨Or.inr ⟨_, rfl⟩, fun m _ => rfl, ?_, fun m _ => Or.inl hlen⟩
    intro id hid
    cases hid

/-- Witness for the amended C6 at a concrete input: a well-formed batch
submission yields a job id with a pending record (conjunct applied at a
concrete state), via the amended theorem. -/
theorem c6_witness :
    findJob initState (jobIdOf initState.nextId) = none ∧
    ∃ r, findJob (submit_batch_variant_analysis (fun _ => true) initState
        ["chr1:100A>G"] ["chr1:1-1000"] "effects" "human" none none
        none 0).1 "job_0" = some r ∧ r.status = .pending :=
  ⟨rfl,
   (c6_submit_amended (fun _ => true) initState ["chr1:100A>G"]
      ["chr1:1-1000"] "effects" "human" none none none 0 rfl).2.2.1
     "job_0" (by decide)⟩

/-! ## Claim C7: command and argument-vector construction -/

theorem buildArgVector_drop_null (args : ArgMap) :
    buildArgVector (args.filter (fun p => !(p.2 == ArgValue.null))) =
      buildArgVector args := by
  induction args with
  | nil => rfl
  | cons hd tl ih =>
    obtain ⟨k, v⟩ := hd
    cases v <;> simp [buildArgVector, List.filter_cons, argTokens] <;>
      simpa [buildArgVector] using ih

theorem argTokens_list_count (f : String) (xs : List String)
    (h : f ∉ xs) :
    (argTokens f (ArgValue.list xs)).count f = xs.length := by
  induction xs with
  | nil => simp [argTokens]
  | cons x t ih =>
    have hx : ¬(x = f) := fun he => h (by rw [he]; exact List.mem_cons_self _ _)
    have ht : f ∉ t := fun hm => h (List.mem_cons_of_mem _ hm)
    have hstep : argTokens f (ArgValue.list (x :: t)) =
        f :: x :: argTokens f (ArgValue.list t) := by
      simp [argTokens]
    rw [hstep, List.count_cons, List.count_cons]
    have := ih ht
    simp_all [List.count]

/-- C7.  For every submission: the command handed to the Process Executor
(stored on the created pending record) is the resolved script path
followed by the argument vector derived from the submission's argument
mapping (first conjunct); keys whose value is None/absent contribute no
tokens, so dropping them leaves the vector unchanged (second conjunct);
and a list-valued argument expands to repeated flag tokens, one flag
occurrence per list element (third conjunct, for flags that do not occur
among the list's values). -/
theorem c7_command_construction :
    (∀ (s : ManagerState) (path : String) (args : ArgMap) (name : String)
      (now : Nat) (id : String),
      findJob s (jobIdOf s.nextId) = none →
      (submitJob s true path args name now).2 = .jobId id →
      ∃ r, findJob (submitJob s true path args name now).1 id = some r ∧
        r.command = path :: buildArgVector args) ∧
    (∀ args : ArgMap,
      buildArgVector (args.filter (fun p => !(p.2 == ArgValue.null))) =
        buildArgVector args) ∧
    (∀ (f : String) (xs : List String), f ∉ xs →
      (argTokens f (ArgValue.list xs)).count f = xs.length) := by
  refine ⟨?_, buildArgVector_drop_null, argTokens_list_count⟩
  intro s path args name now id hfresh hrep
  rcases submitJob_cases s true path args name now hfresh with hok | herr
  · obtain ⟨hrep2, _, hfound⟩ := hok
    rw [hrep2] at hrep
    cases hrep
    exact ⟨_, hfound, rfl⟩
  · exact absurd herr.2 (by simp)

/-- Witness for C7 at a concrete input: a submission carrying a string
argument, a dropped None argument and a two-element list argument. -/
theorem c7_witness :
    ∃ r, findJob (submitJob initState true
        "scripts/dna_sequence_prediction.py"
        [("sequence", .str "ATGC"), ("input_file", .null),
         ("output_types", .list ["atac", "cage"])] "dna" 0).1
        "job_0" = some r ∧
      r.command = "scripts/dna_sequence_prediction.py" ::
        buildArgVector
          [("sequence", .str "ATGC"), ("input_file", .null),
           ("output_types", .list ["atac", "cage"])] :=
  c7_command_construction.1 initState "scripts/dna_sequence_prediction.py"
    [("sequence", .str "ATGC"), ("input_file", .null),
     ("output_types", .list ["atac", "cage"])] "dna" 0 "job_0" rfl
    (by decide)

/-! ## Synchronous layer: shared character helpers -/

/-- Python `str.upper()` on one ASCII character (the scripts apply
`.upper()` to DNA/identifier text; non-ASCII-letter characters are kept
unchanged, as in CPython for the ASCII range). -/
def upperChar (c : Char) : Char :=
  if 'a' ≤ c ∧ c ≤ 'z' then Char.ofNat (c.toNat - 32) else c

/-- `Char.ofNat` evaluates to the given scalar below the surrogate range. -/
theorem ofNat_toNat_small (n : Nat) (h : n < 55296) :
    (Char.ofNat n).toNat = n := by
  unfold Char.ofNat
  split
  · rfl
  · rename_i hn
    exact absurd (Or.inl h) hn

theorem upperChar_not_lower (c : Char) :
    ¬('a' ≤ upperChar c ∧ upperChar c ≤ 'z') := by
  unfold upperChar
  split
  · rename_i h
    obtain ⟨h1, h2⟩ := h
    have hv1 : 97 ≤ c.toNat := h1
    have hv2 : c.toNat ≤ 122 := h2
    have htn : (Char.ofNat (c.toNat - 32)).toNat = c.toNat - 32 :=
      ofNat_toNat_small _ (by omega)
    intro hcon
    obtain ⟨g1, g2⟩ := hcon
    have gv1 : 97 ≤ (Char.ofNat (c.toNat - 32)).toNat := g1
    rw [htn] at gv1
    omega
  · rename_i h
    exact h

theorem upperChar_idem (c : Char) : upperChar (upperChar c) = upperChar c := by
  have h := upperChar_not_lower c
  unfold upperChar
  rw [if_neg]
  intro hcon
  exact h ⟨hcon.1, hcon.2⟩

/-- Python `str.upper()` over a character list. -/
def upperStr (l : List Char) : List Char := l.map upperChar

theorem upperStr_idem (l : List Char) : upperStr (upperStr l) = upperStr l := by
  unfold upperStr
  rw [List.map_map]
  exact List.map_congr_left (fun c _ => upperChar_idem c)

/-! ## Claim C9: the mock gate in `alphagenome_client.py` -/

/-- Python `str.lower()` on one ASCII character. -/
def lowerChar (c : Char) : Char :=
  if 'A' ≤ c ∧ c ≤ 'Z' then Char.ofNat (c.toNat + 32) else c

/-- Python `str.lower()` over a character list. -/
def lowerStr (l : List Char) : List Char := l.map lowerChar

/-- Translated from `scripts/lib/alphagenome_client.py`:
`USE_MOCK` is true iff the environment variable `ALPHAGENOME_USE_MOCK`
(default "false"), lower-cased, equals "true"; computed once at
module-import time. -/
def useMockOf (envVal : Option String) : Bool :=
  lowerStr (envVal.getD "false").data == "true".data

/-- Outcome of `AlphaGenomeClient.__init__`: a constructed client (with
its `is_mock` flag), or a raised `ValueError` / `NotImplementedError`. -/
inductive ClientInit
  | ok (isMock : Bool)
  | valueError (msg : String)
  | notImplementedError (msg : String)
deriving DecidableEq, Repr

/-- Translated from `AlphaGenomeClient.__init__`: an empty api key raises
`ValueError`; otherwise with `USE_MOCK` the mock client is installed
(`is_mock = True`); otherwise `NotImplementedError` is raised. -/
def alphaGenomeClientInit (useMock : Bool) (api_key : String) : ClientInit :=
  if api_key.isEmpty then .valueError "API key is required"
  else if useMock then .ok true
  else .notImplementedError
    "Real AlphaGenome API client not implemented in simplified version. Use ALPHAGENOME_USE_MOCK=true for testing."

/-- The value `src/server.py` stores in `ALPHAGENOME_USE_MOCK` (line 21,
executed before any tool module — and hence `alphagenome_client` — is
imported). -/
def serverEnvUseMock : Option String := some "true"

/-- C9.  Whenever `ALPHAGENOME_USE_MOCK` is not (case-insensitively)
"true" at import time, constructing `AlphaGenomeClient` raises for every
api key — `ValueError` when the key is empty, `NotImplementedError`
otherwise — and a successfully constructed client is always the mock
(`is_mock = True`); moreover `server.py` sets `ALPHAGENOME_USE_MOCK` to
"true" before importing any tool module, so the gate is open there. -/
theorem c9_mock_gate (envVal : Option String) (api_key : String)
    (h : useMockOf envVal = false) :
    (api_key.isEmpty = true →
      alphaGenomeClientInit (useMockOf envVal) api_key =
        .valueError "API key is required") ∧
    (api_key.isEmpty = false →
      alphaGenomeClientInit (useMockOf envVal) api_key =
        .notImplementedError
          "Real AlphaGenome API client not implemented in simplified version. Use ALPHAGENOME_USE_MOCK=true for testing.") ∧
    (∀ m, alphaGenomeClientInit (useMockOf envVal) api_key ≠ .ok m) ∧
    (∀ (useMock : Bool) (key : String) (m : Bool),
      alphaGenomeClientInit useMock key = .ok m → m = true) ∧
    useMockOf serverEnvUseMock = true := by
  refine ⟨?_, ?_, ?_, ?_, by decide⟩
  · intro he
    unfold alphaGenomeClientInit
    rw [if_pos he]
  · intro he
    unfold alphaGenomeClientInit
    rw [if_neg (by simp [he]), h, if_neg (by simp)]
  · intro m
    unfold alphaGenomeClientInit
    by_cases he : api_key.isEmpty
    · rw [if_pos he]
      intro hc
      cases hc
    · rw [if_neg he, h, if_neg (by simp)]
      intro hc
      cases hc
  · intro useMock key m hm
    unfold alphaGenomeClientInit at hm
    by_cases he : key.isEmpty
    · rw [if_pos he] at hm
      cases hm
    · rw [if_neg he] at hm
      cases useMock with
      | true =>
        rw [if_pos rfl] at hm
        cases hm
        rfl
      | false =>
        rw [if_neg (by simp)] at hm
        cases hm

/-- Witness for C9 at a concrete input: with the variable set to "false"
and a non-empty key, construction raises `NotImplementedError`. -/
theorem c9_witness :
    useMockOf (some "false") = false ∧
    alphaGenomeClientInit (useMockOf (some "false")) "my-key" =
      .notImplementedError
        "Real AlphaGenome API client not implemented in simplified version. Use ALPHAGENOME_USE_MOCK=true for testing." :=
  ⟨by decide,
   (c9_mock_gate (some "false") "my-key" (by decide)).2.1 (by decide)⟩

/-! ## Claim C8: the lost `sequence` keyword in `predict_dna_sequence` -/

/-- Python values appearing in the result dictionaries of the scripts.
Floats (the rounded `gc_content`) are represented by exact rationals;
the rounding to two decimals performed on floats is abstracted away, as
no claim depends on the numeric value. -/
inductive PyVal
  | pyNone
  | pyBool (b : Bool)
  | pyStr (s : String)
  | pyInt (n : Int)
  | pyRat (q : Rat)
  | pyList (xs : List PyVal)
  | pyDict (fields : List (String × PyVal))

/-- A Python dictionary: ordered key/value pairs, no duplicate keys in
the dictionaries the scripts build. -/
abbrev PyDict := List (String × PyVal)

/-- Dictionary lookup (`d[k]` / `d.get(k)`). -/
def pyLookup (d : PyDict) (k : String) : Option PyVal :=
  (d.find? (fun p => p.1 == k)).map (fun p => p.2)

/-- Python `{**a, **b}`: keys of `a` in order with values overridden by
`b` where present, followed by the keys only in `b`. -/
def pyDictUnion (a b : PyDict) : PyDict :=
  a.map (fun p =>
    match b.find? (fun q => q.1 == p.1) with
    | some q => (p.1, q.2)
    | none => p) ++
  b.filter (fun q => !(a.any (fun p => p.1 == q.1)))

/-- Python truthiness of an optional string: absent and empty are falsy. -/
def pyTruthyOptStr : Option String → Bool
  | none => false
  | some s => !s.data.isEmpty

/-- Truthiness used for `prediction_result.get('success', False)`. -/
def pySuccessOf (d : PyDict) : Bool :=
  match pyLookup d "success" with
  | some (.pyBool b) => b
  | some .pyNone => false
  | some (.pyStr s) => !s.data.isEmpty
  | some (.pyInt n) => n != 0
  | some (.pyRat q) => q != 0
  | some (.pyList xs) => !xs.isEmpty
  | some (.pyDict fields) => !fields.isEmpty
  | none => false

/-- A nucleotide letter (upper case), as accepted by the scripts. -/
def isNucleotide (c : Char) : Bool :=
  c == 'A' || c == 'T' || c == 'G' || c == 'C' || c == 'N'

/-- Python `str.strip()`: whitespace removed from both ends. -/
def stripChars (l : List Char) : List Char :=
  ((l.dropWhile Char.isWhitespace).reverse.dropWhile
    Char.isWhitespace).reverse

/-- The external state the script reads: the file system (path to
contents), the mock client's prediction function (its randomized numeric
content is opaque to this development), and the process environment. -/
structure ScriptEnv where
  fs : String → Option String
  predict : String → String → Option (List String) → PyDict
  useMock : Bool
  envApiKey : Option String

/-- Translated from `scripts/lib/utils.py`, `handle_error`: the
standardized error response. -/
def handle_error (msg etype script : String) : PyDict :=
  [("success", .pyBool false), ("error", .pyStr msg),
   ("type", .pyStr etype), ("script", .pyStr script)]

/-- Translated from `scripts/lib/utils.py`, `validate_output_types`:
lower-cases the entries and rejects any outside the five valid names.  The
error message's Python set formatting is abstracted to a fixed string. -/
def validate_output_types (output_types : Option (List String)) :
    Except String (Option (List String)) :=
  match output_types with
  | none => .ok none
  | some ots =>
    let normalized := ots.map (fun t => String.mk (lowerStr t.data))
    if normalized.all (fun t =>
        ["atac", "cage", "dnase", "histone_marks",
         "gene_expression"].contains t) then
      .ok (some normalized)
    else .error "Invalid output types"

/-- Translated from `scripts/lib/utils.py`, `get_api_key`: in mock mode a
dummy key; otherwise the provided key, the environment key, or a raised
`ValueError` (empty strings are falsy and fall through). -/
def get_api_key (useMock : Bool) (envKey : Option String)
    (provided : Option String) : Except String String :=
  if useMock then .ok "mock_key"
  else if pyTruthyOptStr provided then .ok (provided.getD "")
  else if pyTruthyOptStr envKey then .ok (envKey.getD "")
  else .error "API key required. Set ALPHAGENOME_API_KEY environment variable or use --api-key"

/-- Translated from `scripts/lib/file_io.py`, `load_sequence_from_file`:
first line, stripped, filtered to upper-cased DNA letters. -/
def load_sequence_from_file (env : ScriptEnv) (path : String) :
    Except String String :=
  match env.fs path with
  | none => .error ("Could not read sequence from " ++ path)
  | some content =>
    let firstLine := content.data.takeWhile (fun c => !(c == '\n'))
    .ok (String.mk
      (((stripChars firstLine).map upperChar).filter isNucleotide))

/-- Translated from `scripts/lib/utils.py`, `create_sequence_metadata`
(via `calculate_gc_content`); the float value is kept exact. -/
def create_sequence_metadata (sequence : String) (organism : String)
    (output_types : Option (List String)) : PyDict :=
  [("sequence_length", .pyInt sequence.data.length),
   ("gc_content", .pyRat
     (if sequence.data.isEmpty then 0
      else (((sequence.data.map upperChar).countP
          (fun c => c == 'G' || c == 'C') : Rat) * 100) /
        sequence.data.length)),
   ("organism", .pyStr organism),
   ("output_types_requested",
     match output_types with
     | some xs => .pyList (xs.map .pyStr)
     | none => .pyStr "all")]

/-- Translated from `scripts/lib/alphagenome_client.py`,
`AlphaGenomeClient.predict_sequence`: input validation returning
structured failure dictionaries, then delegation to the (mock) client. -/
def clientPredictSequence (env : ScriptEnv) (sequence : String)
    (organism : String) (output_types : Option (List String)) : PyDict :=
  if sequence.data.isEmpty then
    [("success", .pyBool false),
     ("error", .pyStr "Sequence must be a non-empty string"),
     ("type", .pyStr "ValueError")]
  else if !((sequence.data.map upperChar).all isNucleotide) then
    [("success", .pyBool false),
     ("error", .pyStr "Sequence contains invalid characters. Only A, T, G, C, N are allowed"),
     ("type", .pyStr "ValueError")]
  else env.predict sequence organism output_types

/-- Translated from `scripts/dna_sequence_prediction.py`,
`run_dna_sequence_prediction`.  Exceptions raised in the body are caught
by its own `except` clause and formatted by `handle_error`, so the
embedding returns those dictionaries directly at the raise points.  File
writing (`write_output`) has no bearing on the returned dictionary beyond
the `output_file` field and is dropped. -/
def run_dna_sequence_prediction (env : ScriptEnv)
    (input_sequence input_file output_file : Option String)
    (organism : String) (output_types : Option (List String))
    (all_outputs : Bool) (api_key : Option String) (pretty : Bool) :
    PyDict :=
  if pyTruthyOptStr input_sequence && pyTruthyOptStr input_file then
    handle_error "Specify either input_sequence or input_file, not both"
      "ValueError" "dna_sequence_prediction.py"
  else if !(pyTruthyOptStr input_sequence) && !(pyTruthyOptStr input_file) then
    handle_error "Must specify either input_sequence or input_file"
      "ValueError" "dna_sequence_prediction.py"
  else
    let seqRes : Except PyDict String :=
      if pyTruthyOptStr input_sequence then
        .ok (String.mk (stripChars (input_sequence.getD "").data))
      else
        match env.fs (input_file.getD "") with
        | none => .error (handle_error
            ("Input file not found: " ++ input_file.getD "")
            "FileNotFoundError" "dna_sequence_prediction.py")
        | some _ =>
          match load_sequence_from_file env (input_file.getD "") with
          | .ok sq => .ok sq
          | .error m => .error (handle_error m "ValueError"
              "dna_sequence_prediction.py")
    match seqRes with
    | .error d => d
    | .ok sequence =>
      if sequence.data.isEmpty then
        handle_error "DNA sequence cannot be empty" "ValueError"
          "dna_sequence_prediction.py"
      else if !((sequence.data.map upperChar).all isNucleotide) then
        handle_error "Invalid DNA characters found. Only A, T, G, C, N are allowed"
          "ValueError" "dna_sequence_prediction.py"
      else
        let rotRes : Except PyDict (Option (List String)) :=
          if all_outputs then .ok none
          else
            match validate_output_types output_types with
            | .ok v => .ok v
            | .error m => .error (handle_error m "ValueError"
                "dna_sequence_prediction.py")
        match rotRes with
        | .error d => d
        | .ok requested =>
          match get_api_key env.useMock env.envApiKey api_key with
          | .error m => handle_error m "ValueError"
              "dna_sequence_prediction.py"
          | .ok key =>
            match alphaGenomeClientInit env.useMock key with
            | .valueError m => handle_error m "ValueError"
                "dna_sequence_prediction.py"
            | .notImplementedError m => handle_error m
                "NotImplementedError" "dna_sequence_prediction.py"
            | .ok _ =>
              let prediction_result :=
                clientPredictSequence env sequence organism requested
              if !(pySuccessOf prediction_result) then prediction_result
              else
                [("success", .pyBool true),
                 ("result", .pyDict prediction_result),
                 ("metadata", .pyDict (pyDictUnion
                   (create_sequence_metadata sequence organism requested)
                   [("script", .pyStr "dna_sequence_prediction.py"),
                    ("input_file",
                      match input_file with
                      | some f => .pyStr f
                      | none => .pyNone),
                    ("pretty_output", .pyBool pretty)])),
                 ("output_file",
                   if pyTruthyOptStr output_file then
                     .pyStr (output_file.getD "")
                   else .pyNone)]

/-- Translated from `src/server.py`, `predict_dna_sequence`: forwards its
arguments to `run_dna_sequence_prediction` as keyword arguments.  The
keyword `sequence=` matches no named parameter of
`run_dna_sequence_prediction` (whose parameter is `input_sequence`), so
in Python it is absorbed by `**kwargs` and `input_sequence` keeps its
default `None`; the embedding therefore passes `none` for
`input_sequence` whatever `sequence` holds.  The successful return is
`{"status": "success", **result}`. -/
def predict_dna_sequence (env : ScriptEnv) (sequence : Option String)
    (input_file : Option String) (organism : String)
    (output_types : Option (List String)) (output_file : Option String) :
    PyDict :=
  pyDictUnion [("status", .pyStr "success")]
    (run_dna_sequence_prediction env none input_file output_file organism
      output_types false none true)

/-- C8.  Every call of the MCP tool `predict_dna_sequence` that supplies
a `sequence` argument and no `input_file` returns a dictionary carrying
both `"status": "success"` and `"success": False`, an error message that
an input must be specified, and no prediction result — because the
`sequence=` keyword is absorbed by `**kwargs` and `input_sequence` stays
`None`. -/
theorem c8_sequence_keyword_lost (env : ScriptEnv) (seqVal : String)
    (organism : String) (output_types : Option (List String))
    (output_file : Option String) :
    pyLookup (predict_dna_sequence env (some seqVal) none organism
      output_types output_file) "status" = some (.pyStr "success") ∧
    pyLookup (predict_dna_sequence env (some seqVal) none organism
      output_types output_file) "success" = some (.pyBool false) ∧
    pyLookup (predict_dna_sequence env (some seqVal) none organism
      output_types output_file) "error" =
      some (.pyStr "Must specify either input_sequence or input_file") ∧
    pyLookup (predict_dna_sequence env (some seqVal) none organism
      output_types output_file) "result" = none := by
  refine ⟨rfl, rfl, rfl, rfl⟩

/-! ## Claim C10: `parse_variant_string` -/

/-- The distinct `ValueError` branches of `parse_variant_string`
(`scripts/lib/parsers.py`): the regex mismatch, and the four explicit
post-regex checks. -/
inductive VariantError
  | invalidFormat
  | negativePosition
  | emptyAllele
  | invalidRefChars
  | invalidAltChars
deriving DecidableEq, Repr

/-- The numeric value of a digit run (`int` of the matched group). -/
def natOfDigits (l : List Char) : Nat :=
  l.foldl (fun acc c => acc * 10 + (c.toNat - 48)) 0

/-- The regex `^([^:]+):(\d+)([ATGCN]+)>([ATGCN]+)$` of
`parse_variant_string`, applied to a character list: chromosome up to the
first colon, a digit run, a nucleotide run, `>`, a nucleotide run to the
end.  The group alphabets are pairwise disjoint and exclude `:` and `>`,
so greedy matching without backtracking is exact. -/
def matchVariantRegex (s : List Char) :
    Option (List Char × List Char × List Char × List Char) :=
  let chrom := s.takeWhile (fun c => !(c == ':'))
  let rest := s.dropWhile (fun c => !(c == ':'))
  match rest with
  | [] => none
  | _ :: rest1 =>
    let digits := rest1.takeWhile Char.isDigit
    let rest2 := rest1.drop digits.length
    let ref := rest2.takeWhile (fun c => !(c == '>'))
    match rest2.drop ref.length with
    | [] => none
    | _ :: alt =>
      if chrom.isEmpty then none
      else if digits.isEmpty then none
      else if ref.isEmpty then none
      else if !(ref.all isNucleotide) then none
      else if alt.isEmpty then none
      else if !(alt.all isNucleotide) then none
      else some (chrom, digits, ref, alt)

/-- Translated from `scripts/lib/parsers.py`, `parse_variant_string`:
the regex is matched against the stripped, upper-cased input; on a match
the explicit post-regex checks of the source run in order (negative
position, empty alleles, non-nucleotide characters in ref or alt) before
the tuple is returned. -/
def parse_variant_string (input : List Char) :
    Except VariantError (List Char × Int × List Char × List Char) :=
  match matchVariantRegex (upperStr (stripChars input)) with
  | none => .error .invalidFormat
  | some (chrom, digits, ref, alt) =>
    let position : Int := Int.ofNat (natOfDigits digits)
    if position < 0 then .error .negativePosition
    else if ref.isEmpty || alt.isEmpty then .error .emptyAllele
    else if !(ref.all isNucleotide) then .error .invalidRefChars
    else if !(alt.all isNucleotide) then .error .invalidAltChars
    else .ok (chrom, position, ref, alt)

/-- What a successful regex match guarantees about its groups. -/
theorem matchVariantRegex_spec (s : List Char)
    (chrom digits ref alt : List Char)
    (h : matchVariantRegex s = some (chrom, digits, ref, alt)) :
    chrom ≠ [] ∧ digits ≠ [] ∧
    ref ≠ [] ∧ ref.all isNucleotide = true ∧
    alt ≠ [] ∧ alt.all isNucleotide = true ∧
    chrom = s.takeWhile (fun c => !(c == ':')) := by
  unfold matchVariantRegex at h
  cases hrest : s.dropWhile (fun c => !(c == ':')) with
  | nil => rw [hrest] at h; cases h
  | cons c0 rest1 =>
    rw [hrest] at h
    simp only at h
    cases hrest2 :
        (rest1.drop (rest1.takeWhile Char.isDigit).length).drop
          ((rest1.drop (rest1.takeWhile Char.isDigit).length).takeWhile
            (fun c => !(c == '>'))).length with
    | nil => rw [hrest2] at h; cases h
    | cons c1 alt0 =>
      rw [hrest2] at h
      simp only at h
      by_cases h1 : (s.takeWhile (fun c => !(c == ':'))).isEmpty
      · rw [if_pos h1] at h; cases h
      · rw [if_neg h1] at h
        by_cases h2 : (rest1.takeWhile Char.isDigit).isEmpty
        · rw [if_pos h2] at h; cases h
        · rw [if_neg h2] at h
          by_cases h3 :
              ((rest1.drop (rest1.takeWhile Char.isDigit).length).takeWhile
                (fun c => !(c == '>'))).isEmpty
          · rw [if_pos h3] at h; cases h
          · rw [if_neg h3] at h
            by_cases h4 :
                ((rest1.drop (rest1.takeWhile Char.isDigit).length).takeWhile
                  (fun c => !(c == '>'))).all isNucleotide
            · rw [h4] at h
              simp only [Bool.not_true, Bool.false_eq_true, if_false] at h
              by_cases h5 : alt0.isEmpty
              · rw [if_pos h5] at h; cases h
              · rw [if_neg h5] at h
                by_cases h6 : alt0.all isNucleotide
                · rw [h6] at h
                  simp only [Bool.not_true, Bool.false_eq_true,
                    if_false] at h
                  cases h
                  refine ⟨by simpa using h1, by simpa using h2,
                    by simpa using h3, h4, by simpa using h5, h6, rfl⟩
                · rw [show alt0.all isNucleotide = false by
                      simpa using h6] at h
                  simp only [Bool.not_false, if_true] at h
                  cases h
            · rw [show ((rest1.drop
                    (rest1.takeWhile Char.isDigit).length).takeWhile
                  (fun c => !(c == '>'))).all isNucleotide = false by
                    simpa using h4] at h
              simp only [Bool.not_false, if_true] at h
              cases h

theorem upperChar_of_nucleotide (c : Char) (h : isNucleotide c = true) :
    upperChar c = c := by
  unfold isNucleotide at h
  have hc : (((c = 'A' ∨ c = 'T') ∨ c = 'G') ∨ c = 'C') ∨ c = 'N' := by
    simpa using h
  rcases hc with (((rfl | rfl) | rfl) | rfl) | rfl <;> decide

theorem upperStr_fixed (m : List Char) (h : ∀ c ∈ m, upperChar c = c) :
    upperStr m = m := by
  unfold upperStr
  rw [List.map_congr_left h]
  simp

theorem upperStr_takeWhile (l : List Char) (p : Char → Bool) :
    upperStr ((upperStr l).takeWhile p) = (upperStr l).takeWhile p := by
  apply upperStr_fixed
  intro c hc
  have hmem : c ∈ upperStr l := (List.takeWhile_sublist _).subset hc
  obtain ⟨d, _, rfl⟩ := List.mem_map.mp hmem
  exact upperChar_idem d

/-- C10.  Whenever `parse_variant_string` returns normally, the returned
chromosome, reference and alternate alleles are fully upper-cased
(each is a fixed point of upper-casing), ref and alt are non-empty
strings over the alphabet A, T, G, C, N, and the position is a
non-negative integer; and the explicit post-regex error branches
(negative position, empty alleles, invalid allele characters) are
unreachable — the only error ever produced is the regex-mismatch
`invalidFormat`, because the regex match on the upper-cased, stripped
input already enforces those conditions. -/
theorem c10_parse_variant :
    (∀ (input chrom ref alt : List Char) (pos : Int),
      parse_variant_string input = .ok (chrom, pos, ref, alt) →
      upperStr chrom = chrom ∧ upperStr ref = ref ∧ upperStr alt = alt ∧
      ref ≠ [] ∧ ref.all isNucleotide = true ∧
      alt ≠ [] ∧ alt.all isNucleotide = true ∧ 0 ≤ pos) ∧
    (∀ (input : List Char) (e : VariantError),
      parse_variant_string input = .error e → e = .invalidFormat) := by
  have main : ∀ (input : List Char)
      (chrom digits ref alt : List Char),
      matchVariantRegex (upperStr (stripChars input)) =
        some (chrom, digits, ref, alt) →
      parse_variant_string input =
        .ok (chrom, Int.ofNat (natOfDigits digits), ref, alt) ∧
      upperStr chrom = chrom ∧ upperStr ref = ref ∧ upperStr alt = alt ∧
      ref ≠ [] ∧ ref.all isNucleotide = true ∧
      alt ≠ [] ∧ alt.all isNucleotide = true := by
    intro input chrom digits ref alt hm
    obtain ⟨hc, hd, hr, hrall, ha, haall, hctw⟩ :=
      matchVariantRegex_spec _ _ _ _ _ hm
    have hok : parse_variant_string input =
        .ok (chrom, Int.ofNat (natOfDigits digits), ref, alt) := by
      unfold parse_variant_string
      rw [hm]
      simp only
      rw [if_neg (show ¬ Int.ofNat (natOfDigits digits) < 0 from
          not_lt.mpr (Int.ofNat_nonneg _)),
        if_neg (by simp [hr, ha]), if_neg (by simp [hrall]),
        if_neg (by simp [haall])]
    refine ⟨hok, ?_, ?_, ?_, hr, hrall, ha, haall⟩
    · rw [hctw]
      exact upperStr_takeWhile _ _
    · exact upperStr_fixed ref (fun c hcm =>
        upperChar_of_nucleotide c (by
          have := List.all_eq_true.mp hrall c hcm
          simpa using this))
    · exact upperStr_fixed alt (fun c hcm =>
        upperChar_of_nucleotide c (by
          have := List.all_eq_true.mp haall c hcm
          simpa using this))
  constructor
  · intro input chrom ref alt pos h
    cases hm : matchVariantRegex (upperStr (stripChars input)) with
    | none =>
      unfold parse_variant_string at h
      rw [hm] at h
      cases h
    | some quad =>
      obtain ⟨c, d, r, a⟩ := quad
      obtain ⟨hok, hu1, hu2, hu3, hr, hrall, ha, haall⟩ :=
        main input c d r a hm
      rw [hok] at h
      cases h
      exact ⟨hu1, hu2, hu3, hr, hrall, ha, haall, Int.ofNat_nonneg _⟩
  · intro input e h
    cases hm : matchVariantRegex (upperStr (stripChars input)) with
    | none =>
      unfold parse_variant_string at h
      rw [hm] at h
      cases h
      rfl
    | some quad =>
      obtain ⟨c, d, r, a⟩ := quad
      obtain ⟨hok, _⟩ := main input c d r a hm
      rw [hok] at h
      cases h

/-- Witness for C10 at a concrete input: parsing "chr1:1001000A>G"
upper-cases the chromosome and returns nucleotide alleles and a
non-negative position. -/
theorem c10_witness :
    parse_variant_string "chr1:1001000A>G".data =
      .ok ("CHR1".data, Int.ofNat 1001000, "A".data, "G".data) ∧
    (upperStr "CHR1".data = "CHR1".data ∧
      upperStr "A".data = "A".data ∧ upperStr "G".data = "G".data ∧
      "A".data ≠ [] ∧ ("A".data).all isNucleotide = true ∧
      "G".data ≠ [] ∧ ("G".data).all isNucleotide = true ∧
      0 ≤ Int.ofNat 1001000) :=
  ⟨rfl,
   c10_parse_variant.1 "chr1:1001000A>G".data "CHR1".data "A".data
     "G".data (Int.ofNat 1001000) rfl⟩
